import Mathlib

/-!
Verification of the address-book and notes manager: a shallow embedding of
`models.py`, `commands.py` and the dispatch combinators, with theorems about
the birthday algorithm, record invariants, field validation and the
persist-on-mutation policy.
-/

/-! ### Calendar model (Python `datetime.date`, proleptic Gregorian) -/

/-- Python `calendar.isleap`. -/
def isleap (y : Nat) : Bool :=
  (y % 4 == 0 && y % 100 != 0) || (y % 400 == 0)

/-- A calendar date, mirroring Python `datetime.date(year, month, day)`. -/
structure PyDate where
  year : Nat
  month : Nat
  day : Nat
deriving Repr, DecidableEq

/-- Strict comparison of dates: Python compares valid dates like tuples
`(year, month, day)` lexicographically. -/
def PyDate.ltP (a b : PyDate) : Prop :=
  a.year < b.year ∨ (a.year = b.year ∧
    (a.month < b.month ∨ (a.month = b.month ∧ a.day < b.day)))

instance (a b : PyDate) : Decidable (PyDate.ltP a b) := by
  unfold PyDate.ltP; exact inferInstance

/-- Non-strict lexicographic comparison of dates. -/
def PyDate.leP (a b : PyDate) : Prop :=
  a.year < b.year ∨ (a.year = b.year ∧
    (a.month < b.month ∨ (a.month = b.month ∧ a.day ≤ b.day)))

instance (a b : PyDate) : Decidable (PyDate.leP a b) := by
  unfold PyDate.leP; exact inferInstance

theorem PyDate.not_ltP_of_leP {a b : PyDate} (h : PyDate.leP a b) :
    ¬ PyDate.ltP b a := by
  unfold PyDate.leP at h
  unfold PyDate.ltP
  omega

/-- `Record.get_next_birthday` (models.py): candidate in `today`'s year with the
Feb-29 → Mar-1 shift in non-leap years; if the candidate is strictly before
`today`, recompute for the next year with the same shift. -/
def getNextBirthday (born today : PyDate) : PyDate :=
  let year := today.year
  let month := born.month
  let day := born.day
  let md : Nat × Nat :=
    if month == 2 && day == 29 && !(isleap year) then (3, 1) else (month, day)
  let nextBd : PyDate := ⟨year, md.1, md.2⟩
  if PyDate.ltP nextBd today then
    let year := year + 1
    let md : Nat × Nat :=
      if born.month == 2 && born.day == 29 && !(isleap year) then (3, 1)
      else (born.month, born.day)
    ⟨year, md.1, md.2⟩
  else nextBd

/-- The candidate for one year, as the spec words it: `(month, day)` from the
stored birthday, with the leap-day rule applied for that year. -/
def specCandidate (born : PyDate) (y : Nat) : PyDate :=
  if born.month = 2 ∧ born.day = 29 ∧ isleap y = false then ⟨y, 3, 1⟩
  else ⟨y, born.month, born.day⟩

/-- The next-birthday computation as the spec words it: candidate in
`today.year`; if strictly before `today`, the candidate for `today.year + 1`. -/
def specNextBirthday (born today : PyDate) : PyDate :=
  let c := specCandidate born today.year
  if PyDate.ltP c today then specCandidate born (today.year + 1) else c

theorem getNextBirthday_eq_spec (born today : PyDate) :
    getNextBirthday born today = specNextBirthday born today := by
  unfold getNextBirthday specNextBirthday specCandidate
  by_cases h : born.month = 2 ∧ born.day = 29 ∧ isleap today.year = false
  · obtain ⟨h1, h2, h3⟩ := h
    simp only [h1, h2, h3]
    by_cases h4 : isleap (today.year + 1) = true
    · simp [h4]
    · simp only [Bool.not_eq_true] at h4
      simp [h4]
  · by_cases h4 : isleap (today.year + 1) = true
    · simp only [beq_iff_eq, Bool.and_eq_true, Bool.not_eq_eq_eq_not,
        Bool.not_true, decide_eq_true_eq]
      by_cases h1 : born.month = 2 <;> by_cases h2 : born.day = 29 <;>
        simp_all [h4]
    · simp only [Bool.not_eq_true] at h4
      simp only [beq_iff_eq, Bool.and_eq_true, Bool.not_eq_eq_eq_not,
        Bool.not_true, decide_eq_true_eq]
      by_cases h1 : born.month = 2 <;> by_cases h2 : born.day = 29 <;>
        simp_all [h4]

/-- C1: the next-birthday computation follows the spec algorithm; with a
Feb-29 birthday, in a leap year with `today` on or before Feb 29 it returns
Feb 29 of that year, and in a non-leap year with `today` on or before Mar 1
it returns Mar 1 of that year. (The original claim asserted March 1 for every
`today` in a non-leap year; when `today` is past March 1 and the next year is
a leap year the code returns Feb 29 of the next year instead, see the
counterexample.) -/
theorem getNextBirthday_spec_correct :
    (∀ born today, getNextBirthday born today = specNextBirthday born today)
    ∧ (∀ born today, born.month = 2 → born.day = 29 →
        isleap today.year = true →
        PyDate.leP today ⟨today.year, 2, 29⟩ →
        getNextBirthday born today = ⟨today.year, 2, 29⟩)
    ∧ (∀ born today, born.month = 2 → born.day = 29 →
        isleap today.year = false →
        PyDate.leP today ⟨today.year, 3, 1⟩ →
        getNextBirthday born today = ⟨today.year, 3, 1⟩) := by
  refine ⟨getNextBirthday_eq_spec, ?_, ?_⟩
  · intro born today h1 h2 h3 h4
    unfold getNextBirthday
    simp only [h1, h2, h3, beq_self_eq_true, Bool.and_self, Bool.not_true,
      Bool.and_false, Bool.false_eq_true, if_false, if_neg]
    rw [if_neg]
    exact PyDate.not_ltP_of_leP h4
  · intro born today h1 h2 h3 h4
    unfold getNextBirthday
    simp only [h1, h2, h3, beq_self_eq_true, Bool.and_self, Bool.not_false,
      Bool.and_true, if_true]
    rw [if_neg]
    exact PyDate.not_ltP_of_leP h4

/-- C1 counterexample to the original claim: 2027 is not a leap year, yet for
a Feb-29 birthday and `today = 2027-03-02` the code returns Feb 29 of 2028
(2028 is a leap year), not March 1 of any year. -/
theorem getNextBirthday_nonleap_not_always_mar1 :
    isleap 2027 = false
    ∧ getNextBirthday ⟨2000, 2, 29⟩ ⟨2027, 3, 2⟩ = ⟨2028, 2, 29⟩
    ∧ (getNextBirthday ⟨2000, 2, 29⟩ ⟨2027, 3, 2⟩).month ≠ 3 := by
  refine ⟨rfl, ?_, ?_⟩ <;> decide

/-- C1 witness: the theorem applied at concrete inputs. -/
theorem getNextBirthday_spec_correct_witness :
    getNextBirthday ⟨1996, 2, 29⟩ ⟨2024, 1, 15⟩ = ⟨2024, 2, 29⟩
    ∧ getNextBirthday ⟨1996, 2, 29⟩ ⟨2025, 2, 28⟩ = ⟨2025, 3, 1⟩ :=
  ⟨getNextBirthday_spec_correct.2.1 ⟨1996, 2, 29⟩ ⟨2024, 1, 15⟩ rfl rfl
      (by decide) (by decide),
    getNextBirthday_spec_correct.2.2 ⟨1996, 2, 29⟩ ⟨2025, 2, 28⟩ rfl rfl
      (by decide) (by decide)⟩

/-! ### Date ordinals and weekday names (Python `date.toordinal`, `strftime`) -/

/-- Month lengths of a year, as Python `calendar` has them. -/
def monthLengths (y : Nat) : List Nat :=
  [31, if isleap y then 29 else 28, 31, 30, 31, 30, 31, 31, 30, 31, 30, 31]

/-- Days in the year strictly before month `m`. -/
def daysBeforeMonth (y m : Nat) : Nat :=
  ((monthLengths y).take (m - 1)).foldl (· + ·) 0

/-- Python `date.toordinal`: day count in the proleptic Gregorian calendar,
with `0001-01-01` as ordinal 1. -/
def toOrdinal (d : PyDate) : Nat :=
  365 * (d.year - 1) + (d.year - 1) / 4 + (d.year - 1) / 400 - (d.year - 1) / 100
    + daysBeforeMonth d.year d.month + d.day

/-- Full weekday names as `strftime("%A")` produces them. -/
def weekdayNames : List String :=
  ["Monday", "Tuesday", "Wednesday", "Thursday", "Friday", "Saturday", "Sunday"]

/-- `next_bd.strftime("%A")`: the full weekday name of a date
(`0001-01-01` is a Monday in the proleptic Gregorian calendar). -/
def weekdayName (d : PyDate) : String :=
  weekdayNames.getD ((toOrdinal d + 6) % 7) ""

/-- Left-pad a number to two digits, as `strftime` does for `%d` and `%m`. -/
def pad2 (n : Nat) : String :=
  if n < 10 then "0" ++ toString n else toString n

/-- Left-pad a year to four digits, as `strftime` does for `%Y`. -/
def pad4 (n : Nat) : String :=
  if n < 10 then "000" ++ toString n
  else if n < 100 then "00" ++ toString n
  else if n < 1000 then "0" ++ toString n
  else toString n

/-- The canonical `DD.MM.YYYY` text of a stored `Birthday` field
(`Birthday.value`, normalized through `strftime(BIRTHDAY_FORMAT)`). -/
def birthdayText (d : PyDate) : String :=
  pad2 d.day ++ "." ++ pad2 d.month ++ "." ++ pad4 d.year

/-! ### Python string primitives, modelled structurally over the char list -/

/-- Drop leading whitespace characters. -/
def stripLeft (l : List Char) : List Char :=
  match l with
  | [] => []
  | c :: cs => if c.isWhitespace then stripLeft cs else c :: cs

/-- Python `str.strip()`: drop whitespace at both ends. -/
def pyStrip (s : String) : String :=
  String.mk ((stripLeft (stripLeft s.data).reverse).reverse)

/-- Python `str.lower()` (ASCII case mapping). -/
def pyLower (s : String) : String :=
  String.mk (s.data.map Char.toLower)

/-- Python `str.startswith(p)`. -/
def pyStartsWith (s p : String) : Bool :=
  p.data.isPrefixOf s.data

/-- Python `" ".join(parts)`. -/
def joinSpace : List String -> String
  | [] => ""
  | [x] => x
  | x :: xs => x ++ " " ++ joinSpace xs

/-! ### Python exceptions and the error normalization (`commands.input_error`) -/

/-- The exceptions the handlers raise; each carries `args[0]` as a string. -/
inductive PyErr where
  | keyError (msg : String)
  | valueError (msg : String)
  | indexError (msg : String)
  | otherError (msg : String)
deriving Repr, DecidableEq

/-- The `input_error` decorator's mapping from a caught exception to the
user-facing string. -/
def normalizeErr : PyErr → String
  | .keyError m => "Not found: '" ++ m ++ "'."
  | .valueError m => "Value error: " ++ m
  | .indexError m => if m = "" then "Not enough arguments. Use: help" else m
  | .otherError m => "Error: " ++ m

/-! ### Validated fields (models.py `Field`, `Name`, `Phone`) -/

/-- The configured phone length (`PHONE_DIGITS`, default 10). -/
def phoneDigits : Nat := 10

/-- Modelled from the spec: `PHONE_REGEX` lives in `config.py`, which is not
among the source files; the spec fixes it as a fixed-length all-digit pattern
of `PHONE_DIGITS` (default 10) digits, matched in full. -/
def validPhone (s : String) : Bool :=
  s.length == phoneDigits && s.data.all Char.isDigit

/-- The error message of the `Phone` value setter. -/
def phoneErrMsg : String := "Phone must contain exactly 10 digits."

/-- The base `Field` value setter: strip the string and store it, with no
validation. -/
def fieldSet (v : String) : String := pyStrip v

/-- Constructing a `Name` (`Name` adds nothing to `Field`): always succeeds,
storing the trimmed string. -/
def mkName (v : String) : Except PyErr String := .ok (fieldSet v)

/-- Constructing a `Phone`: strip, then require the full-string digit match,
else raise `ValueError`. -/
def mkPhone (v : String) : Except PyErr String :=
  let s := pyStrip v
  if validPhone s then .ok s else .error (.valueError phoneErrMsg)

/-! ### Contact records (models.py `Record`) -/

/-- One contact: the stored values of its fields. `phones` and `emails` hold
the validated stored strings in insertion order; `birthday` holds the parsed
date of the stored `Birthday`. -/
structure Record where
  name : String
  phones : List String
  emails : List String
  address : Option String
  birthday : Option PyDate
deriving Repr, DecidableEq

/-- `Record.add_phone`: append unless an equal stored value is present. -/
def Record.addPhone (r : Record) (v : String) : Record :=
  if v ∈ r.phones then r else { r with phones := r.phones ++ [v] }

/-- Drop the first occurrence of `v` (the loop of `remove_phone`). -/
def removeFirst (l : List String) (v : String) : List String :=
  match l with
  | [] => []
  | x :: xs => if x = v then xs else x :: removeFirst xs v

/-- `Record.remove_phone`: drop the first matching phone, report success. -/
def Record.removePhone (r : Record) (v : String) : Record × Bool :=
  if v ∈ r.phones then ({ r with phones := removeFirst r.phones v }, true)
  else (r, false)

/-- `Record.add_email`: append unless an equal stored value is present. -/
def Record.addEmail (r : Record) (v : String) : Record :=
  if v ∈ r.emails then r else { r with emails := r.emails ++ [v] }

/-- `Record.remove_email`: drop the first matching email, report success. -/
def Record.removeEmail (r : Record) (v : String) : Record × Bool :=
  if v ∈ r.emails then ({ r with emails := removeFirst r.emails v }, true)
  else (r, false)

/-- The loop of `Record.edit_phone`: find the first phone equal to `old` and
assign `new` through the validating `Phone` setter (which strips, validates,
and only then stores); raise `KeyError` if no phone matches. -/
def editPhoneList (contactName : String) (l : List String) (old new : String) :
    List String × Option PyErr :=
  match l with
  | [] => ([], some (.keyError
      ("Phone '" ++ old ++ "' not found for contact '" ++ contactName ++ "'.")))
  | p :: ps =>
    if p = old then
      if validPhone (pyStrip new) then (pyStrip new :: ps, none)
      else (p :: ps, some (.valueError phoneErrMsg))
    else
      let res := editPhoneList contactName ps old new
      (p :: res.1, res.2)

/-- `Record.edit_phone`: the record after the loop, with the exception it
raised, if any. -/
def Record.editPhone (r : Record) (old new : String) : Record × Option PyErr :=
  let res := editPhoneList r.name r.phones old new
  ({ r with phones := res.1 }, res.2)

/-- The mutating record operations of claim C3 that preserve uniqueness
unconditionally. -/
inductive RecOp where
  | addP (v : String)
  | remP (v : String)
  | addE (v : String)
  | remE (v : String)

def applyRecOp (r : Record) : RecOp → Record
  | .addP v => r.addPhone v
  | .remP v => (r.removePhone v).1
  | .addE v => r.addEmail v
  | .remE v => (r.removeEmail v).1

def applyRecOps (r : Record) (ops : List RecOp) : Record :=
  ops.foldl applyRecOp r

/-- The record invariant: no two phones and no two emails share a stored
value. -/
def recordUniq (r : Record) : Prop := r.phones.Nodup ∧ r.emails.Nodup

theorem mem_removeFirst {l : List String} {v a : String}
    (h : a ∈ removeFirst l v) : a ∈ l := by
  induction l with
  | nil => simp [removeFirst] at h
  | cons x xs ih =>
    by_cases hx : x = v
    · simp only [removeFirst, if_pos hx] at h
      exact List.mem_cons_of_mem _ h
    · simp only [removeFirst, if_neg hx, List.mem_cons] at h
      rcases h with h | h
      · exact h ▸ List.mem_cons_self _ _
      · exact List.mem_cons_of_mem _ (ih h)

theorem nodup_removeFirst {l : List String} {v : String}
    (h : l.Nodup) : (removeFirst l v).Nodup := by
  induction l with
  | nil => simp [removeFirst]
  | cons x xs ih =>
    rw [List.nodup_cons] at h
    by_cases hx : x = v
    · simpa [removeFirst, hx] using h.2
    · rw [removeFirst, if_neg hx, List.nodup_cons]
      exact ⟨fun hm => h.1 (mem_removeFirst hm), ih h.2⟩

theorem nodup_append_singleton {l : List String} {v : String}
    (h : l.Nodup) (hv : v ∉ l) : (l ++ [v]).Nodup := by
  simp [List.nodup_append, h, hv]

theorem mem_editPhoneList {c : String} {l : List String} {old new a : String}
    (h : a ∈ (editPhoneList c l old new).1) : a ∈ l ∨ a = pyStrip new := by
  induction l with
  | nil => simp only [editPhoneList] at h; simp at h
  | cons p ps ih =>
    by_cases hp : p = old
    · by_cases hv : validPhone (pyStrip new) = true
      · simp only [editPhoneList, if_pos hp, if_pos hv, List.mem_cons] at h
        rcases h with h | h
        · exact Or.inr h
        · exact Or.inl (List.mem_cons_of_mem _ h)
      · rw [Bool.not_eq_true] at hv
        simp only [editPhoneList, if_pos hp, hv, Bool.false_eq_true,
          if_false, List.mem_cons] at h
        rcases h with h | h
        · exact Or.inl (h ▸ List.mem_cons_self _ _)
        · exact Or.inl (List.mem_cons_of_mem _ h)
    · simp only [editPhoneList, if_neg hp, List.mem_cons] at h
      rcases h with h | h
      · exact Or.inl (h ▸ List.mem_cons_self _ _)
      · rcases ih h with h | h
        · exact Or.inl (List.mem_cons_of_mem _ h)
        · exact Or.inr h

theorem nodup_editPhoneList {c : String} {l : List String} {old new : String}
    (h : l.Nodup) (hc : pyStrip new = old ∨ pyStrip new ∉ l) :
    (editPhoneList c l old new).1.Nodup := by
  induction l with
  | nil => simp [editPhoneList]
  | cons p ps ih =>
    rw [List.nodup_cons] at h
    by_cases hp : p = old
    · by_cases hv : validPhone (pyStrip new) = true
      · simp only [editPhoneList, if_pos hp, if_pos hv, List.nodup_cons]
        refine ⟨?_, h.2⟩
        rcases hc with hc | hc
        · rw [hc, ← hp]; exact h.1
        · intro hm; exact hc (List.mem_cons_of_mem _ hm)
      · rw [Bool.not_eq_true] at hv
        simp only [editPhoneList, if_pos hp, hv, Bool.false_eq_true, if_false,
          List.nodup_cons]
        exact ⟨h.1, h.2⟩
    · simp only [editPhoneList, if_neg hp, List.nodup_cons]
      have hc' : pyStrip new = old ∨ pyStrip new ∉ ps := by
        rcases hc with hc | hc
        · exact Or.inl hc
        · exact Or.inr fun hm => hc (List.mem_cons_of_mem _ hm)
      refine ⟨fun hm => ?_, ih h.2 hc'⟩
      rcases mem_editPhoneList hm with hm | hm
      · exact h.1 hm
      · rcases hc with hc | hc
        · exact hp (hm ▸ hc)
        · exact hc (hm ▸ List.mem_cons_self _ _)

/-- C3 (amended): the uniqueness invariant (no two phones and no two emails
share a stored value) is preserved by every sequence of `add_phone`,
`remove_phone`, `add_email`, `remove_email`; `edit_phone` preserves it only
when the validated new value equals the old one or is not already stored (the
original claim included unrestricted `edit_phone`, refuted by the
counterexample). -/
theorem record_uniqueness_invariant :
    (∀ (r : Record) (ops : List RecOp), recordUniq r →
        recordUniq (applyRecOps r ops))
    ∧ (∀ (r : Record) (old new : String), recordUniq r →
        (pyStrip new = old ∨ pyStrip new ∉ r.phones) →
        recordUniq (r.editPhone old new).1) := by
  constructor
  · intro r ops
    induction ops generalizing r with
    | nil => intro h; exact h
    | cons op rest ih =>
      intro h
      rw [applyRecOps, List.foldl_cons]
      apply ih
      obtain ⟨hp, he⟩ := h
      cases op with
      | addP v =>
        unfold applyRecOp Record.addPhone
        by_cases hv : v ∈ r.phones
        · simpa [hv] using ⟨hp, he⟩
        · simp only [if_neg hv]
          exact ⟨nodup_append_singleton hp hv, he⟩
      | remP v =>
        unfold applyRecOp Record.removePhone
        by_cases hv : v ∈ r.phones
        · simp only [if_pos hv]
          exact ⟨nodup_removeFirst hp, he⟩
        · simpa [hv] using ⟨hp, he⟩
      | addE v =>
        unfold applyRecOp Record.addEmail
        by_cases hv : v ∈ r.emails
        · simpa [hv] using ⟨hp, he⟩
        · simp only [if_neg hv]
          exact ⟨hp, nodup_append_singleton he hv⟩
      | remE v =>
        unfold applyRecOp Record.removeEmail
        by_cases hv : v ∈ r.emails
        · simp only [if_pos hv]
          exact ⟨hp, nodup_removeFirst he⟩
        · simpa [hv] using ⟨hp, he⟩
  · intro r old new h hc
    exact ⟨nodup_editPhoneList h.1 hc, h.2⟩

/-- C3 counterexample: starting from an empty record, add phones 1111111111
and 2222222222, then `edit_phone("1111111111", "2222222222")`; the edit
validates the new value but never checks uniqueness, leaving the same stored
value twice on the record. -/
theorem editPhone_breaks_uniqueness :
    ((applyRecOps ⟨"Ann", [], [], none, none⟩
        [.addP "1111111111", .addP "2222222222"]).editPhone
        "1111111111" "2222222222").1.phones = ["2222222222", "2222222222"]
    ∧ ¬ ((applyRecOps ⟨"Ann", [], [], none, none⟩
        [.addP "1111111111", .addP "2222222222"]).editPhone
        "1111111111" "2222222222").1.phones.Nodup := by
  constructor <;> decide

/-- C3 witness: the theorem applied at a concrete record and operation
sequence. -/
theorem record_uniqueness_invariant_witness :
    recordUniq (applyRecOps ⟨"Ann", ["1234567890"], [], none, none⟩
      [.addP "1234567890", .addP "0987654321", .remP "1234567890",
        .addE "a@b.co"]) :=
  record_uniqueness_invariant.1 _ _ (by constructor <;> decide)

/-- C5 (amended): `Name` inherits the base `Field` setter unchanged, so its
construction never fails: every string is accepted and stored stripped; an
empty or whitespace-only string yields the empty stored value rather than a
validation error (the original claim said such input fails). -/
theorem mkName_never_fails :
    (∀ s : String, mkName s = .ok (pyStrip s))
    ∧ mkName "" = .ok ""
    ∧ mkName "   " = .ok "" := by
  exact ⟨fun s => rfl, rfl, rfl⟩

/-- C5 counterexample: constructing a `Name` from a whitespace-only string
succeeds, storing the empty string, instead of failing with a validation
error. -/
theorem mkName_accepts_whitespace :
    mkName " " = .ok "" := rfl

/-- C6: `edit_phone(old, new)` raises `KeyError` and leaves the record
unchanged when no phone equals `old`; when `old` is present but `new` fails
phone validation, the `ValueError` is raised by the setter before any
assignment, so the record is returned unchanged with `old` still present. -/
theorem editPhone_atomic :
    (∀ (r : Record) (old new : String), old ∉ r.phones →
        r.editPhone old new = (r, some (.keyError
          ("Phone '" ++ old ++ "' not found for contact '" ++ r.name ++ "'."))))
    ∧ (∀ (r : Record) (old new : String), old ∈ r.phones →
        validPhone (pyStrip new) = false →
        r.editPhone old new = (r, some (.valueError phoneErrMsg))) := by
  constructor
  · intro r old new h
    unfold Record.editPhone
    have key : ∀ l : List String, old ∉ l →
        editPhoneList r.name l old new = (l, some (.keyError
          ("Phone '" ++ old ++ "' not found for contact '" ++ r.name ++ "'."))) := by
      intro l
      induction l with
      | nil => intro _; rfl
      | cons p ps ih =>
        intro hm
        rw [List.mem_cons, not_or] at hm
        rw [editPhoneList, if_neg (fun hp => hm.1 hp.symm), ih hm.2]
    rw [key r.phones h]
  · intro r old new h hv
    unfold Record.editPhone
    have key : ∀ l : List String, old ∈ l →
        editPhoneList r.name l old new =
          (l, some (.valueError phoneErrMsg)) := by
      intro l
      induction l with
      | nil => intro hm; cases hm
      | cons p ps ih =>
        intro hm
        by_cases hp : p = old
        · rw [editPhoneList, if_pos hp, hv]
          simp
        · rw [List.mem_cons] at hm
          rcases hm with hm | hm
          · exact absurd hm.symm hp
          · rw [editPhoneList, if_neg hp, ih hm]
    rw [key r.phones h]

/-- C6 witness: the theorem applied at concrete records. -/
theorem editPhone_atomic_witness :
    (Record.editPhone ⟨"Ann", ["1234567890"], [], none, none⟩
        "0000000000" "0987654321"
      = (⟨"Ann", ["1234567890"], [], none, none⟩, some (.keyError
          "Phone '0000000000' not found for contact 'Ann'.")))
    ∧ (Record.editPhone ⟨"Ann", ["1234567890"], [], none, none⟩
        "1234567890" "12345"
      = (⟨"Ann", ["1234567890"], [], none, none⟩,
          some (.valueError phoneErrMsg))) :=
  ⟨editPhone_atomic.1 _ "0000000000" "0987654321" (by decide),
    editPhone_atomic.2 _ "1234567890" "12345" (by decide) (by decide)⟩

/-- C7: constructing a `Phone` from a string whose stripped form is exactly
`PHONE_DIGITS` (= 10) digits succeeds and stores that stripped digit string
unchanged; for every other string construction raises `ValueError`. The last
conjunct ties the modelled pattern to the spec words: the match succeeds
exactly on strings of length 10 all of whose characters are digits. -/
theorem mkPhone_validation :
    (∀ s : String, validPhone (pyStrip s) = true → mkPhone s = .ok (pyStrip s))
    ∧ (∀ s : String, validPhone (pyStrip s) = false →
        mkPhone s = .error (.valueError phoneErrMsg))
    ∧ (∀ s : String, validPhone s = true ↔
        (s.length = phoneDigits ∧ ∀ c ∈ s.data, c.isDigit)) := by
  refine ⟨fun s h => ?_, fun s h => ?_, fun s => ?_⟩
  · unfold mkPhone
    simp only [h, if_true]
  · unfold mkPhone
    simp only [h, Bool.false_eq_true, if_false]
  · unfold validPhone
    simp [Bool.and_eq_true, beq_iff_eq, List.all_eq_true]

/-- C7 witness: the theorem applied at concrete strings. -/
theorem mkPhone_validation_witness :
    mkPhone " 1234567890 " = .ok "1234567890"
    ∧ mkPhone "123456789" = .error (.valueError phoneErrMsg)
    ∧ validPhone "1234567890" = true :=
  ⟨mkPhone_validation.1 " 1234567890 " (by decide),
    mkPhone_validation.2.1 "123456789" (by decide),
    (mkPhone_validation.2.2 "1234567890").mpr (by decide)⟩

/-! ### Keyed collections (Python dicts in insertion order) -/

/-- First value stored under `k`, mirroring `key in d` / `d[key]`. -/
def lookupKey {α : Type} (l : List (String × α)) (k : String) : Option α :=
  match l with
  | [] => none
  | (k', v) :: rest => if k' = k then some v else lookupKey rest k

/-- Python `d[key] = v`: overwrite the entry if the key is present, else
append it. -/
def setKey {α : Type} (l : List (String × α)) (k : String) (v : α) :
    List (String × α) :=
  match l with
  | [] => [(k, v)]
  | (k', v') :: rest =>
    if k' = k then (k', v) :: rest else (k', v') :: setKey rest k v

/-- Python `d.pop(key)`: drop the entry with the key. -/
def eraseKey {α : Type} (l : List (String × α)) (k : String) :
    List (String × α) :=
  match l with
  | [] => []
  | (k', v') :: rest =>
    if k' = k then rest else (k', v') :: eraseKey rest k

theorem setKey_lookup_self {α : Type} {l : List (String × α)} {k : String}
    {v : α} (h : lookupKey l k = some v) : setKey l k v = l := by
  induction l with
  | nil => simp [lookupKey] at h
  | cons p rest ih =>
    by_cases hk : p.1 = k
    · rw [lookupKey, if_pos hk] at h
      cases h
      rw [setKey, if_pos hk]
    · rw [lookupKey, if_neg hk] at h
      rw [setKey, if_neg hk, ih h]

/-! ### AddressBook (models.py) -/

/-- The contact book: lower-cased name key to record, in insertion order. -/
abbrev AddressBook : Type := List (String × Record)

/-- `AddressBook.add_record`: raise `KeyError` if the lower-cased name key is
taken, else store the record under it; the pair is the book afterwards and
the exception raised, if any. -/
def addRecordState (book : AddressBook) (r : Record) :
    AddressBook × Option PyErr :=
  let key := pyLower r.name
  match lookupKey book key with
  | some _ => (book, some (.keyError
      ("Contact '" ++ r.name ++ "' already exists.")))
  | none => (book ++ [(key, r)], none)

/-- `AddressBook.get_record`: look up by stripped, lower-cased name; raise
`KeyError(name)` if absent. -/
def getRecord (book : AddressBook) (name : String) : Except PyErr Record :=
  match lookupKey book (pyLower (pyStrip name)) with
  | some r => .ok r
  | none => .error (.keyError name)

/-- `AddressBook.remove_record`: pop the key, report whether it was there. -/
def removeRecord (book : AddressBook) (name : String) : AddressBook × Bool :=
  let key := pyLower (pyStrip name)
  match lookupKey book key with
  | some _ => (eraseKey book key, true)
  | none => (book, false)

/-! ### Notes (models.py `Note`, `NoteBook`) -/

/-- A note: title, body and normalized tags. -/
structure Note where
  title : String
  text : String
  tags : List String
deriving Repr, DecidableEq

/-- The note book: lower-cased stripped title key to note. -/
abbrev NoteBook : Type := List (String × Note)

/-- `NoteBook.add`: raise `KeyError` on a duplicate title key. -/
def noteAdd (nb : NoteBook) (n : Note) : Except PyErr NoteBook :=
  let key := pyLower (pyStrip n.title)
  match lookupKey nb key with
  | some _ => .error (.keyError ("Note '" ++ n.title ++ "' already exists."))
  | none => .ok (nb ++ [(key, n)])

/-- The persistence aggregate (storage.py `Storage`). -/
structure Storage where
  contacts : AddressBook
  notes : NoteBook

/-! ### Command dispatch combinators (commands.py) -/

/-- A handler as registered in commands.py: it receives the argument tokens
and the storage, and yields the storage afterwards together with the returned
string or the exception it raised (mutations made before a raise persist, as
they do in Python). -/
def Handler (σ : Type) : Type := List String → σ → σ × Except PyErr String

/-- The guard of the `mutating` decorator: save only a truthy result that
does not start with `"Error"` and is not the exit signal. -/
def saveGuard (r : String) : Bool :=
  !(r == "") && !(pyStartsWith r "Error") && !(r == "__EXIT__")

/-- The `mutating` decorator: run the wrapped handler; when it returns
normally and the guard passes, call `save_storage`. The third component
records whether `save_storage` was called; an exception propagates without
saving. -/
def mutatingRun {σ : Type} (f : Handler σ) (args : List String) (s : σ) :
    σ × Except PyErr String × Bool :=
  match f args s with
  | (s', .error e) => (s', .error e, false)
  | (s', .ok r) => (s', .ok r, saveGuard r)

/-- `input_error` applied over `mutating`, the composition every mutating
command is registered with: exceptions that escape the handler are normalized
to a friendly string at this boundary. Components: storage afterwards, the
user-facing outcome, and whether `save_storage` was called. -/
def dispatchMutating {σ : Type} (f : Handler σ) (args : List String) (s : σ) :
    σ × String × Bool :=
  match mutatingRun f args s with
  | (s', .error e, saved) => (s', normalizeErr e, saved)
  | (s', .ok r, saved) => (s', r, saved)

/-- C2: a mutating command persists the storage exactly when its handler
returns a non-error, non-exit result. If the handler raises, the exception
skips the save call (it is normalized to a message only at the outer
`input_error` boundary), so nothing is persisted; if the handler returns a
non-empty string that does not start with `"Error"` and is not the exit
signal, `save_storage` is called; and conversely a save only happens for such
a returned string. -/
theorem mutating_persists_iff_success :
    ∀ {σ : Type} (f : Handler σ) (args : List String) (s : σ),
      (∀ s' e, f args s = (s', .error e) →
        dispatchMutating f args s = (s', normalizeErr e, false))
      ∧ (∀ s' r, f args s = (s', .ok r) →
          r ≠ "" → pyStartsWith r "Error" = false → r ≠ "__EXIT__" →
          dispatchMutating f args s = (s', r, true))
      ∧ ((dispatchMutating f args s).2.2 = true →
          ∃ s' r, f args s = (s', .ok r) ∧ r ≠ ""
            ∧ pyStartsWith r "Error" = false ∧ r ≠ "__EXIT__") := by
  intro σ f args s
  refine ⟨fun s' e h => ?_, fun s' r h h1 h2 h3 => ?_, fun h => ?_⟩
  · unfold dispatchMutating mutatingRun
    rw [h]
  · unfold dispatchMutating mutatingRun
    rw [h]
    have hg : saveGuard r = true := by
      unfold saveGuard
      simp [h1, h2, h3]
    simp [hg]
  · rcases hf : f args s with ⟨t, res⟩
    rcases res with e | r
    · unfold dispatchMutating mutatingRun at h
      rw [hf] at h
      simp at h
    · unfold dispatchMutating mutatingRun at h
      rw [hf] at h
      replace h : saveGuard r = true := h
      unfold saveGuard at h
      simp only [Bool.and_eq_true, Bool.not_eq_true', beq_eq_false_iff_ne] at h
      exact ⟨t, r, rfl, h.1.1, h.1.2, h.2⟩

/-- C2 witness: the theorem applied to concrete succeeding and raising
handlers over `Nat` storage. -/
theorem mutating_persists_iff_success_witness :
    dispatchMutating (fun (_ : List String) (n : Nat) => (n + 1, .ok "Done."))
        [] 0 = (1, "Done.", true)
    ∧ dispatchMutating (fun (_ : List String) (n : Nat) =>
        (n, .error (.valueError "Bad input"))) [] 0
      = (0, "Value error: Bad input", false) :=
  ⟨(mutating_persists_iff_success
        (fun (_ : List String) (n : Nat) => (n + 1, .ok "Done.")) [] 0).2.1
      1 "Done." rfl (by decide) (by decide) (by decide),
    (mutating_persists_iff_success
        (fun (_ : List String) (n : Nat) =>
          (n, .error (.valueError "Bad input"))) [] 0).1
      0 (.valueError "Bad input") rfl⟩

/-- C9: `add_record` on a name whose case-insensitive key is already present
raises `KeyError` and leaves the book exactly as it was: the stored record is
untouched and nothing is added or removed. -/
theorem addRecord_duplicate_unchanged :
    ∀ (book : AddressBook) (r r0 : Record),
      lookupKey book (pyLower r.name) = some r0 →
      addRecordState book r = (book, some (.keyError
        ("Contact '" ++ r.name ++ "' already exists."))) := by
  intro book r r0 h
  simp [addRecordState, h]

/-- C9 witness: the theorem applied at a concrete book. -/
theorem addRecord_duplicate_unchanged_witness :
    addRecordState [("ann", ⟨"Ann", ["1234567890"], [], none, none⟩)]
        ⟨"ANN", [], [], none, none⟩
      = ([("ann", ⟨"Ann", ["1234567890"], [], none, none⟩)],
          some (.keyError "Contact 'ANN' already exists.")) :=
  addRecord_duplicate_unchanged _ _ ⟨"Ann", ["1234567890"], [], none, none⟩
    (by decide)

/-! ### Concrete command handlers (commands.py) -/

/-- `Record(Name(name))`: a fresh record with only the name set. -/
def emptyRecord (n : String) : Record :=
  { name := n, phones := [], emails := [], address := none, birthday := none }

/-- `cmd_add` (add-contact): create the contact, or report/extend an existing
one. -/
def cmdAdd : Handler Storage := fun args s =>
  match args with
  | [] => (s, .error (.indexError "list index out of range"))
  | nameArg :: rest =>
    let phoneRes : Except PyErr (Option String) :=
      match rest with
      | [] => .ok none
      | p :: _ => (mkPhone p).map some
    match phoneRes with
    | .error e => (s, .error e)
    | .ok phone =>
      match lookupKey s.contacts (pyLower (pyStrip nameArg)) with
      | none =>
        let r1 :=
          match phone with
          | some p => (emptyRecord (fieldSet nameArg)).addPhone p
          | none => emptyRecord (fieldSet nameArg)
        let res := addRecordState s.contacts r1
        match res.2 with
        | some e => ({ s with contacts := res.1 }, .error e)
        | none =>
          ({ s with contacts := res.1 }, .ok (match phone with
            | some p =>
              "Added contact " ++ r1.name ++ " with phone " ++ p ++ "."
            | none => "Added contact " ++ r1.name ++ "."))
      | some r =>
        match phone with
        | none => (s, .ok ("Contact " ++ r.name
            ++ " already exists. Provide a phone to add."))
        | some p =>
          if p ∈ r.phones then
            (s, .ok ("Phone " ++ p ++ " already exists for " ++ r.name ++ "."))
          else
            ({ s with contacts :=
                setKey s.contacts (pyLower (pyStrip nameArg)) (r.addPhone p) },
              .ok ("Phone added for " ++ r.name ++ "."))

/-- `cmd_add_note` (add-note): join the text tokens, refuse empty text, and
add the note (its `NoteBook.add` raises `KeyError` on a duplicate title). -/
def cmdAddNote : Handler Storage := fun args s =>
  match args with
  | [] => (s, .error (.indexError "list index out of range"))
  | title :: rest =>
    let text := pyStrip (joinSpace rest)
    if text = "" then (s, .error (.valueError "Note text cannot be empty."))
    else
      match noteAdd s.notes { title := title, text := text, tags := [] } with
      | .error e => (s, .error e)
      | .ok nb => ({ s with notes := nb }, .ok ("Note added: " ++ title))

/-- `cmd_delete_contact` (delete-contact): remove by name; a miss is reported
as a plain string, not an exception. -/
def cmdDeleteContact : Handler Storage := fun args s =>
  match args with
  | [] => (s, .error (.indexError "list index out of range"))
  | nameArg :: _ =>
    let res := removeRecord s.contacts nameArg
    if res.2 then
      ({ s with contacts := res.1 }, .ok ("Deleted contact '" ++ nameArg ++ "'."))
    else
      ({ s with contacts := res.1 }, .ok "Contact not found.")

/-- `cmd_remove_phone` (delete-phone): fetch the record (raising `KeyError`
when absent), drop the phone; a missing phone is reported as a plain
string. -/
def cmdRemovePhone : Handler Storage := fun args s =>
  match args with
  | nameArg :: phoneArg :: _ =>
    match lookupKey s.contacts (pyLower (pyStrip nameArg)) with
    | none => (s, .error (.keyError nameArg))
    | some r =>
      let res := r.removePhone phoneArg
      let s' := { s with
                  contacts := setKey s.contacts (pyLower (pyStrip nameArg)) res.1 }
      if res.2 then (s', .ok ("Phone removed for " ++ r.name ++ "."))
      else (s', .ok "Phone not found.")
  | _ => (s, .error (.indexError "list index out of range"))

/-- The concrete storage of the C8 counterexample: one note titled `T`. -/
def dupNoteStorage : Storage :=
  { contacts := [], notes := [("t", { title := "T", text := "x", tags := [] })] }

/-- C8 counterexample: dispatching `add-note` with a duplicate title surfaces
the generic `KeyError` normalization of the dispatch boundary — the string
starts with `Not found:` and merely wraps the `already exists` text — rather
than a handler-produced message. -/
theorem addNote_duplicate_generic_notfound :
    dispatchMutating cmdAddNote ["T", "y"] dupNoteStorage
      = (dupNoteStorage, "Not found: 'Note 'T' already exists.'.", false)
    ∧ pyStartsWith
        (dispatchMutating cmdAddNote ["T", "y"] dupNoteStorage).2.1
        "Not found:" = true := by
  constructor <;> rfl

/-- C8 (amended): a duplicate `add-note` escapes the handler as `KeyError`
and is surfaced by the generic `input_error` normalization as
`Not found: 'Note '<title>' already exists.'.` without persisting; by
contrast a duplicate `add-contact` without a phone is answered inside the
handler with the specific message
`Contact <name> already exists. Provide a phone to add.`. -/
theorem duplicate_add_surfacing :
    (∀ (s : Storage) (title : String) (rest : List String) (n : Note),
        pyStrip (joinSpace rest) ≠ "" →
        lookupKey s.notes (pyLower (pyStrip title)) = some n →
        (dispatchMutating cmdAddNote (title :: rest) s).1 = s
        ∧ (dispatchMutating cmdAddNote (title :: rest) s).2
            = ("Not found: '" ++ ("Note '" ++ title ++ "' already exists.")
                ++ "'.", false))
    ∧ (∀ (s : Storage) (nameArg : String) (r : Record),
        lookupKey s.contacts (pyLower (pyStrip nameArg)) = some r →
        (dispatchMutating cmdAdd [nameArg] s).1 = s
        ∧ (dispatchMutating cmdAdd [nameArg] s).2.1
            = "Contact " ++ r.name ++ " already exists. Provide a phone to add.") := by
  constructor
  · intro s title rest n ht hk
    constructor
    · simp only [dispatchMutating, mutatingRun, cmdAddNote, noteAdd,
        if_neg ht, hk]
    · simp only [dispatchMutating, mutatingRun, cmdAddNote, noteAdd,
        if_neg ht, hk]
      rfl
  · intro s nameArg r hk
    simp only [dispatchMutating, mutatingRun, cmdAdd, hk]
    exact ⟨trivial, trivial⟩

/-- The concrete storage of the C8 and C10 witnesses: one contact Ann with
one phone. -/
def annStorage : Storage :=
  { contacts := [("ann", ⟨"Ann", ["1234567890"], [], none, none⟩)], notes := [] }

/-- C8 witness: the theorem applied at a concrete storage. -/
theorem duplicate_add_surfacing_witness :
    (dispatchMutating cmdAddNote ["T", "hello"] dupNoteStorage).2
      = ("Not found: 'Note 'T' already exists.'.", false)
    ∧ (dispatchMutating cmdAdd ["Ann"] annStorage).2.1
      = "Contact Ann already exists. Provide a phone to add." :=
  ⟨(duplicate_add_surfacing.1 dupNoteStorage "T" ["hello"]
      { title := "T", text := "x", tags := [] } (by decide) rfl).2,
    (duplicate_add_surfacing.2 annStorage "Ann"
      ⟨"Ann", ["1234567890"], [], none, none⟩ rfl).2⟩

/-- C10: a mutating handler that misses its target but returns a plain
string — `delete-contact` answering `Contact not found.`, `delete-phone`
answering `Phone not found.` — still triggers `save_storage`, because the
persist guard only suppresses results starting with `Error` or equal to the
exit signal; the storage it saves is unchanged. -/
theorem miss_results_still_persist :
    (∀ (s : Storage) (nameArg : String) (rest : List String),
        lookupKey s.contacts (pyLower (pyStrip nameArg)) = none →
        dispatchMutating cmdDeleteContact (nameArg :: rest) s
          = (s, "Contact not found.", true))
    ∧ (∀ (s : Storage) (nameArg phoneArg : String) (rest : List String)
        (r : Record),
        lookupKey s.contacts (pyLower (pyStrip nameArg)) = some r →
        phoneArg ∉ r.phones →
        dispatchMutating cmdRemovePhone (nameArg :: phoneArg :: rest) s
          = (s, "Phone not found.", true)) := by
  constructor
  · intro s nameArg rest h
    unfold dispatchMutating mutatingRun cmdDeleteContact removeRecord
    simp only [h]
    rfl
  · intro s nameArg phoneArg rest r hk hp
    unfold dispatchMutating mutatingRun cmdRemovePhone Record.removePhone
    simp only [hk, if_neg hp]
    have hs : setKey s.contacts (pyLower (pyStrip nameArg)) r = s.contacts :=
      setKey_lookup_self hk
    simp only [hs]
    rfl

/-- C10 witness: the theorem applied at a concrete storage. -/
theorem miss_results_still_persist_witness :
    dispatchMutating cmdDeleteContact ["Bob"] annStorage
      = (annStorage, "Contact not found.", true)
    ∧ dispatchMutating cmdRemovePhone ["Ann", "0000000000"] annStorage
      = (annStorage, "Phone not found.", true) :=
  ⟨miss_results_still_persist.1 annStorage "Bob" [] rfl,
    miss_results_still_persist.2 annStorage "Ann" "0000000000" []
      ⟨"Ann", ["1234567890"], [], none, none⟩ rfl (by decide)⟩

/-! ### Upcoming birthdays (models.py `AddressBook.upcoming_birthdays`) -/

/-- `Record.days_to_birthday`: days from `today` to the next birthday, as
Python computes `(next_bd - today).days`; absent when no birthday is set. -/
def daysToBirthday (r : Record) (today : PyDate) : Option Int :=
  match r.birthday with
  | none => none
  | some born =>
    some ((toOrdinal (getNextBirthday born today) : Int) - (toOrdinal today : Int))

/-- A reminder entry: contact name, stored birthday text, weekday name. -/
abbrev Entry : Type := String × String × String

/-- `bucket.setdefault(delta, []).append(entry)`: append to the group of the
key if present, else add the key with a singleton group at the end (Python
dicts keep insertion order). -/
def bucketAdd (b : List (Int × List Entry)) (d : Int) (e : Entry) :
    List (Int × List Entry) :=
  match b with
  | [] => [(d, [e])]
  | (k, g) :: rest =>
    if k = d then (k, g ++ [e]) :: rest else (k, g) :: bucketAdd rest d e

/-- One iteration of the collection loop: skip records without a birthday or
with a delta outside `0 ≤ delta ≤ days`; otherwise file the entry under its
delta. -/
def bucketStep (days : Int) (today : PyDate) (b : List (Int × List Entry))
    (r : Record) : List (Int × List Entry) :=
  match r.birthday with
  | none => b
  | some born =>
    match daysToBirthday r today with
    | none => b
    | some delta =>
      if 0 ≤ delta ∧ delta ≤ days then
        bucketAdd b delta
          (r.name, birthdayText born, weekdayName (getNextBirthday born today))
      else b

/-- Python string comparison on code points, structurally on the char
lists. -/
def charListLe : List Char → List Char → Bool
  | [], _ => true
  | _ :: _, [] => false
  | a :: as, b :: bs =>
    if a.toNat = b.toNat then charListLe as bs else decide (a.toNat < b.toNat)

/-- The group sort key of `bucket[d].sort(key=lambda t: t[0].lower())`:
compare entries by lower-cased name. -/
def entryLeR (a b : Entry) : Prop :=
  charListLe (pyLower a.1).data (pyLower b.1).data = true

instance (a b : Entry) : Decidable (entryLeR a b) := by
  unfold entryLeR; exact inferInstance

/-- The key order of `sorted(bucket.items(), key=lambda kv: kv[0])`. -/
def deltaLeR (p q : Int × List Entry) : Prop := p.1 ≤ q.1

instance (p q : Int × List Entry) : Decidable (deltaLeR p q) := by
  unfold deltaLeR; exact inferInstance

/-- `AddressBook.upcoming_birthdays(days, today)`: collect the in-window
records into delta groups over the book's values in insertion order, sort
each group by lower-cased name, and order the groups by ascending delta. -/
def upcomingBirthdays (book : AddressBook) (days : Int) (today : PyDate) :
    List (Int × List Entry) :=
  let b := (book.map Prod.snd).foldl (bucketStep days today) []
  let b2 := b.map (fun p => (p.1, List.insertionSort entryLeR p.2))
  List.insertionSort deltaLeR b2

theorem charListLe_total : ∀ a b : List Char,
    charListLe a b = true ∨ charListLe b a = true := by
  intro a
  induction a with
  | nil => intro b; exact Or.inl rfl
  | cons x xs ih =>
    intro b
    cases b with
    | nil => exact Or.inr rfl
    | cons y ys =>
      by_cases h : x.toNat = y.toNat
      · rcases ih ys with h2 | h2
        · exact Or.inl (by simp [charListLe, h, h2])
        · exact Or.inr (by simp [charListLe, h.symm, h2])
      · rcases Nat.lt_or_ge x.toNat y.toNat with h2 | h2
        · exact Or.inl (by simp [charListLe, h, h2])
        · have h4 : ¬ y.toNat = x.toNat := by omega
          have h3 : y.toNat < x.toNat := by omega
          exact Or.inr (by simp [charListLe, h4, h3])

theorem charListLe_trans : ∀ a b c : List Char,
    charListLe a b = true → charListLe b c = true → charListLe a c = true := by
  intro a
  induction a with
  | nil => intro _ _ _ _; rfl
  | cons x xs ih =>
    intro b c h1 h2
    cases b with
    | nil => simp [charListLe] at h1
    | cons y ys =>
      cases c with
      | nil => simp [charListLe] at h2
      | cons z zs =>
        simp only [charListLe] at h1 h2 ⊢
        by_cases e1 : x.toNat = y.toNat <;> by_cases e2 : y.toNat = z.toNat
        · rw [if_pos e1] at h1
          rw [if_pos e2] at h2
          rw [if_pos (e1.trans e2)]
          exact ih ys zs h1 h2
        · rw [if_pos e1] at h1
          rw [if_neg e2] at h2
          rw [decide_eq_true_eq] at h2
          rw [if_neg (by omega), decide_eq_true_eq]
          omega
        · rw [if_neg e1, decide_eq_true_eq] at h1
          rw [if_pos e2] at h2
          rw [if_neg (by omega), decide_eq_true_eq]
          omega
        · rw [if_neg e1, decide_eq_true_eq] at h1
          rw [if_neg e2, decide_eq_true_eq] at h2
          rw [if_neg (by omega), decide_eq_true_eq]
          omega

instance : IsTotal Entry entryLeR := ⟨fun _ _ => charListLe_total _ _⟩

instance : IsTrans Entry entryLeR := ⟨fun _ _ _ => charListLe_trans _ _ _⟩

instance : IsTotal (Int × List Entry) deltaLeR := ⟨fun p q => Int.le_total p.1 q.1⟩

instance : IsTrans (Int × List Entry) deltaLeR :=
  ⟨fun _ _ _ h1 h2 => Int.le_trans h1 h2⟩

/-- An entry filed under delta `d` comes from a record of the book whose
computed delta is `d`, and carries that record's name, stored birthday text
and the weekday name of its computed next birthday. -/
def entryWitness (book : AddressBook) (today : PyDate) (d : Int) (e : Entry) :
    Prop :=
  ∃ r ∈ book.map Prod.snd, ∃ born, r.birthday = some born
    ∧ daysToBirthday r today = some d
    ∧ e = (r.name, birthdayText born, weekdayName (getNextBirthday born today))

/-- The collection invariant for one bucket pair: its key is inside the
window and every entry of its group is witnessed at that key. -/
def goodPair (book : AddressBook) (days : Int) (today : PyDate)
    (p : Int × List Entry) : Prop :=
  (0 ≤ p.1 ∧ p.1 ≤ days) ∧ ∀ e ∈ p.2, entryWitness book today p.1 e

theorem bucketAdd_good {book : AddressBook} {days : Int} {today : PyDate}
    {b : List (Int × List Entry)} {d : Int} {e : Entry}
    (hb : ∀ p ∈ b, goodPair book days today p)
    (hd : 0 ≤ d ∧ d ≤ days)
    (he : entryWitness book today d e) :
    ∀ p ∈ bucketAdd b d e, goodPair book days today p := by
  induction b with
  | nil =>
    intro p hp
    simp only [bucketAdd, List.mem_singleton] at hp
    subst hp
    refine ⟨hd, ?_⟩
    intro x hx
    rw [List.mem_singleton] at hx
    subst hx
    exact he
  | cons q rest ih =>
    rcases q with ⟨k, g⟩
    intro p hp
    by_cases hk : k = d
    · simp only [bucketAdd, if_pos hk, List.mem_cons] at hp
      rcases hp with hp | hp
      · subst hp
        have hq := hb (k, g) (List.mem_cons_self _ _)
        refine ⟨hq.1, ?_⟩
        intro x hx
        rw [List.mem_append] at hx
        rcases hx with hx | hx
        · exact hq.2 x hx
        · rw [List.mem_singleton] at hx
          subst hx
          exact hk ▸ he
      · exact hb p (List.mem_cons_of_mem _ hp)
    · simp only [bucketAdd, if_neg hk, List.mem_cons] at hp
      rcases hp with hp | hp
      · subst hp
        exact hb (k, g) (List.mem_cons_self _ _)
      · exact ih (fun x hx => hb x (List.mem_cons_of_mem _ hx)) p hp

theorem foldl_bucketStep_good (book : AddressBook) (days : Int)
    (today : PyDate) :
    ∀ (rs : List Record) (b : List (Int × List Entry)),
      (∀ r ∈ rs, r ∈ book.map Prod.snd) →
      (∀ p ∈ b, goodPair book days today p) →
      ∀ p ∈ rs.foldl (bucketStep days today) b, goodPair book days today p := by
  intro rs
  induction rs with
  | nil => intro b _ hb; simpa using hb
  | cons r rs ih =>
    intro b hrs hb
    rw [List.foldl_cons]
    apply ih
    · intro x hx
      exact hrs x (List.mem_cons_of_mem _ hx)
    · intro p hp
      unfold bucketStep at hp
      rcases hbd : r.birthday with _ | born
      · rw [hbd] at hp
        exact hb p hp
      · have hdt : daysToBirthday r today
            = some ((toOrdinal (getNextBirthday born today) : Int)
                - (toOrdinal today : Int)) := by
          unfold daysToBirthday
          rw [hbd]
        simp only [hbd, hdt] at hp
        by_cases hin : 0 ≤ ((toOrdinal (getNextBirthday born today) : Int)
            - (toOrdinal today : Int))
          ∧ ((toOrdinal (getNextBirthday born today) : Int)
            - (toOrdinal today : Int)) ≤ days
        · rw [if_pos hin] at hp
          exact bucketAdd_good hb hin
            ⟨r, hrs r (List.mem_cons_self _ _), born, hbd, hdt, rfl⟩ p hp
        · rw [if_neg hin] at hp
          exact hb p hp

/-- C4: `upcoming_birthdays(days, today)` returns groups whose keys all lie
in `0 ≤ delta ≤ days` (never negative, never above the window), ordered by
ascending delta; each group is sorted by lower-cased name; and every entry of
a group comes from a record of the book whose computed delta is the group
key, carrying the weekday name of that record's computed next birthday. -/
theorem upcoming_birthdays_spec :
    ∀ (book : AddressBook) (days : Int) (today : PyDate),
      (upcomingBirthdays book days today).Pairwise deltaLeR
      ∧ ∀ p ∈ upcomingBirthdays book days today,
          (0 ≤ p.1 ∧ p.1 ≤ days)
          ∧ p.2.Pairwise entryLeR
          ∧ ∀ e ∈ p.2, ∃ r ∈ book.map Prod.snd, ∃ born,
              r.birthday = some born
              ∧ daysToBirthday r today = some p.1
              ∧ e = (r.name, birthdayText born,
                  weekdayName (getNextBirthday born today)) := by
  intro book days today
  constructor
  · exact List.sorted_insertionSort deltaLeR _
  · intro p hp
    unfold upcomingBirthdays at hp
    rw [List.mem_insertionSort, List.mem_map] at hp
    obtain ⟨q, hq, hpq⟩ := hp
    have hgood : goodPair book days today q :=
      foldl_bucketStep_good book days today (book.map Prod.snd) []
        (fun r hr => hr) (fun x hx => absurd hx (List.not_mem_nil x)) q hq
    subst hpq
    refine ⟨hgood.1, List.sorted_insertionSort entryLeR _, ?_⟩
    intro e he
    rw [List.mem_insertionSort] at he
    exact hgood.2 e he

/-- The concrete book of the C4 witness: Ann with birthday 15.03.1990. -/
def bdayBook : AddressBook :=
  [("ann", ⟨"Ann", [], [], none, some ⟨1990, 3, 15⟩⟩)]

/-- C4 witness: the theorem applied at a concrete book, window and day;
on 2025-03-10 Ann's birthday is 5 days away, falling on a Saturday. -/
theorem upcoming_birthdays_spec_witness :
    (upcomingBirthdays bdayBook 7 ⟨2025, 3, 10⟩).Pairwise deltaLeR
    ∧ ((0 ≤ (5 : Int) ∧ (5 : Int) ≤ 7)
        ∧ ([("Ann", "15.03.1990", "Saturday")] : List Entry).Pairwise entryLeR
        ∧ ∀ e ∈ ([("Ann", "15.03.1990", "Saturday")] : List Entry),
            ∃ r ∈ bdayBook.map Prod.snd, ∃ born, r.birthday = some born
              ∧ daysToBirthday r ⟨2025, 3, 10⟩ = some 5
              ∧ e = (r.name, birthdayText born,
                  weekdayName (getNextBirthday born ⟨2025, 3, 10⟩))) :=
  ⟨(upcoming_birthdays_spec bdayBook 7 ⟨2025, 3, 10⟩).1,
    (upcoming_birthdays_spec bdayBook 7 ⟨2025, 3, 10⟩).2
      (5, [("Ann", "15.03.1990", "Saturday")]) (by decide)⟩
